import Mathlib

/-!
Verification development for the `DataGrid` / `QpData` core of the
quantiphyse repository (`quantiphyse/data/qpdata.py`).

The Python source works on numpy float arrays; here all numeric values are
modelled as exact rationals (`ℚ`), so "within floating-point tolerance"
statements become exact equalities.  Matrices are `Matrix (Fin n) (Fin n) ℚ`,
`np.linalg.inv` is modelled by the adjugate-based inverse `matInv` (the
source raises on singular matrices; theorems that need the inverse carry a
`det ≠ 0` hypothesis).  Numpy arrays are modelled as total functions from
index vectors to `ℚ`, with the array shape carried separately, exactly as
the shape/affine pair is carried by the Python classes.
-/

/-- Tolerance for treating values as equal (`EQ_TOL = 1e-3` in the source). -/
def EQ_TOL : ℚ := mkRat 1 1000

/-- Computable matrix inverse, modelling `np.linalg.inv`:
`A⁻¹ = det(A)⁻¹ • adjugate(A)` (junk when `det = 0`; the source raises). -/
def matInv {n : ℕ} (m : Matrix (Fin n) (Fin n) ℚ) : Matrix (Fin n) (Fin n) ℚ :=
  (m.det)⁻¹ • m.adjugate

/-- First index of the maximum of `f` over `Fin 4` (`np.argmax` keeps the
first occurrence of the maximum: later entries win only when strictly
greater). -/
def argmax4 (f : Fin 4 → ℚ) : Fin 4 :=
  let pick : Fin 4 → Fin 4 → Fin 4 := fun a b => if f b > f a then b else a
  pick (pick (pick 0 1) 2) 3

/-- First index of the maximum of `f` over `Fin 3` (`np.argmax`). -/
def argmax3 (f : Fin 3 → ℚ) : Fin 3 :=
  let pick : Fin 3 → Fin 3 → Fin 3 := fun a b => if f b > f a then b else a
  pick (pick 0 1) 2

/-- Coerce a `Fin 4` grid-axis index (always `< 3` where used) to `Fin 3`. -/
def toFin3 (d : Fin 4) : Fin 3 :=
  if h : d.val < 3 then ⟨d.val, h⟩ else 0

/-- `is_identity(mat)`: true if `mat` is the identity to within `EQ_TOL`. -/
def is_identity (m : Matrix (Fin 4) (Fin 4) ℚ) : Bool :=
  (List.finRange 4).all fun i => (List.finRange 4).all fun j =>
    decide (|m i j - (1 : Matrix (Fin 4) (Fin 4) ℚ) i j| < EQ_TOL)

/-- `is_diagonal(mat)`: true if `mat` is diagonal to within `EQ_TOL`. -/
def is_diagonal (m : Matrix (Fin 4) (Fin 4) ℚ) : Bool :=
  (List.finRange 4).all fun i => (List.finRange 4).all fun j =>
    decide (i ≠ j → |m i j| < EQ_TOL)

/-- `DataGrid`: a regular 3D grid in world space, defined by a voxel-count
`shape` and a 4x4 affine transform to world co-ordinates.  The derived
fields of the Python constructor (`origin`, `transform`, `inv_transform`,
`spacing`, `nvoxels`) are modelled as functions of these two. -/
structure DataGrid where
  shape : Fin 3 → ℕ
  affine : Matrix (Fin 4) (Fin 4) ℚ

namespace DataGrid

/-- `self.transform = affine[:3, :3]`. -/
def transform (g : DataGrid) : Matrix (Fin 3) (Fin 3) ℚ :=
  fun i j => g.affine i.castSucc j.castSucc

/-- `self.origin = affine[:3, 3]`. -/
def origin (g : DataGrid) : Fin 3 → ℚ :=
  fun i => g.affine i.castSucc 3

/-- `self.inv_transform = np.linalg.inv(self.transform)`. -/
def inv_transform (g : DataGrid) : Matrix (Fin 3) (Fin 3) ℚ :=
  matInv g.transform

/-- Square of `self.spacing[i] = np.linalg.norm(self.affine[:, i])` (the
norm of the full 4-entry column `i`).  The norm itself is irrational in
general; its square is rational and determines it, so spacing comparisons
are stated through `spacing_sq`. -/
def spacing_sq (g : DataGrid) (i : Fin 3) : ℚ :=
  ∑ j : Fin 4, (g.affine j i.castSucc) ^ 2

/-- `self.nvoxels`. -/
def nvoxels (g : DataGrid) : ℕ := g.shape 0 * g.shape 1 * g.shape 2

/-- Vector form of `grid_to_world` on the first three co-ordinates:
`world = transform · vec (+ origin unless direction)`. -/
def grid_to_world3 (g : DataGrid) (v : Fin 3 → ℚ) (direction : Bool) : Fin 3 → ℚ :=
  match direction with
  | true => g.transform.mulVec v
  | false => fun i => g.transform.mulVec v i + g.origin i

/-- Vector form of `world_to_grid` on the first three co-ordinates:
subtract the origin (unless direction) then apply `inv_transform`. -/
def world_to_grid3 (g : DataGrid) (v : Fin 3 → ℚ) (direction : Bool) : Fin 3 → ℚ :=
  match direction with
  | true => g.inv_transform.mulVec v
  | false => g.inv_transform.mulVec (fun i => v i - g.origin i)

/-- `coords[:3]` as a vector (the source assumes at least 3 entries). -/
def vec3 (coords : List ℚ) : Fin 3 → ℚ := fun i => coords.getD i.val 0

/-- `DataGrid.grid_to_world`: transform 3D or 4D grid co-ordinates to world
co-ordinates; a 4th entry is returned unchanged. -/
def grid_to_world (g : DataGrid) (coords : List ℚ) (direction : Bool) : List ℚ :=
  let wc := g.grid_to_world3 (vec3 coords) direction
  if coords.length = 4 then [wc 0, wc 1, wc 2, coords.getD 3 0]
  else [wc 0, wc 1, wc 2]

/-- `DataGrid.world_to_grid`: transform world co-ordinates to grid
co-ordinates; a 4th entry is returned unchanged. -/
def world_to_grid (g : DataGrid) (coords : List ℚ) (direction : Bool) : List ℚ :=
  let gc := g.world_to_grid3 (vec3 coords) direction
  if coords.length = 4 then [gc 0, gc 1, gc 2, coords.getD 3 0]
  else [gc 0, gc 1, gc 2]

/-- `DataGrid.grid_to_grid`: transform co-ordinates between two grids going
through world space.  Exactly one of `from_grid` / `to_grid` must be given,
the other defaults to `self`; otherwise the source raises `RuntimeError`. -/
def grid_to_grid (self : DataGrid) (coord : List ℚ)
    (from_grid to_grid : Option DataGrid) (direction : Bool) :
    Except String (List ℚ) :=
  match from_grid, to_grid with
  | some f, none => .ok (self.world_to_grid (f.grid_to_world coord direction) direction)
  | none, some t => .ok (t.world_to_grid (self.grid_to_world coord direction) direction)
  | _, _ => .error "Exactly one of from_grid and to_grid must be specified"

/-- Vector form of `grid_to_grid(v, from_grid=f)` (the `to_grid` defaults to
`self`), used internally by `value`/`timeseries`/`slice_data` which always
pass 3-element lists. -/
def g2g_from (self f : DataGrid) (v : Fin 3 → ℚ) (direction : Bool) : Fin 3 → ℚ :=
  self.world_to_grid3 (f.grid_to_world3 v direction) direction

/-- Vector form of `grid_to_grid(v, to_grid=t)` (the `from_grid` defaults to
`self`). -/
def g2g_to (self t : DataGrid) (v : Fin 3 → ℚ) (direction : Bool) : Fin 3 → ℚ :=
  t.world_to_grid3 (self.grid_to_world3 v direction) direction

end DataGrid

/-- Whether an `Except` result is a success (`no exception raised`). -/
def isOkB {ε α : Type} (e : Except ε α) : Bool :=
  match e with
  | .ok _ => true
  | .error _ => false

namespace DataGrid

/-- Inner step of `simplify_transforms`: `newd = np.argmax(absmat[:, dim])`,
the first row with the largest absolute value in column `dim` of the 4x4
matrix. -/
def st_newd (mat : Matrix (Fin 4) (Fin 4) ℚ) (dim : Fin 3) : Fin 4 :=
  argmax4 (fun i => |mat i dim.castSucc|)

/-- The `dim_order` list accumulated by `simplify_transforms`. -/
def st_order (mat : Matrix (Fin 4) (Fin 4) ℚ) : List (Fin 4) :=
  [st_newd mat 0, st_newd mat 1, st_newd mat 2]

/-- The `dim_flip` list: each `newd` whose chosen entry `mat[newd, dim]` is
negative, in loop order. -/
def st_flip (mat : Matrix (Fin 4) (Fin 4) ℚ) : List (Fin 4) :=
  (List.finRange 3).filterMap (fun dim =>
    if mat (st_newd mat dim) dim.castSucc < 0 then some (st_newd mat dim) else none)

/-- The guard `sorted(dim_order) == range(3)` (Python 2 compares lists). -/
def st_consistent (mat : Matrix (Fin 4) (Fin 4) ℚ) : Bool :=
  decide (((st_order mat).map Fin.val).insertionSort (· ≤ ·) = [0, 1, 2])

/-- Transposition step of `simplify_transforms`:
`new_mat[:, dim_order[idx]] = mat[:, idx]` for `idx = 0, 1, 2`; other
columns (in particular column 3) are kept.  The branches are disjoint
whenever the guard holds, which is the only case in which this matrix is
used. -/
def st_m1 (mat : Matrix (Fin 4) (Fin 4) ℚ) : Matrix (Fin 4) (Fin 4) ℚ :=
  fun i j =>
    if j = st_newd mat 0 then mat i 0
    else if j = st_newd mat 1 then mat i 1
    else if j = st_newd mat 2 then mat i 2
    else mat i j

/-- Flip step: negate every column in `dim_flip` (whole 4-entry column). -/
def st_m2 (mat : Matrix (Fin 4) (Fin 4) ℚ) : Matrix (Fin 4) (Fin 4) ℚ :=
  fun i j => if j ∈ st_flip mat then -(st_m1 mat i j) else st_m1 mat i j

/-- Origin adjustment: for each flipped column `dim`,
`new_mat[:3, 3] -= new_mat[:3, dim] * (new_shape[dim] - 1)` where
`new_shape[dim] = shape[dim_order[dim]]`; the flipped columns themselves
are unchanged by this loop, so the sequential updates sum. -/
def st_m3 (shape : Fin 3 → ℕ) (mat : Matrix (Fin 4) (Fin 4) ℚ) :
    Matrix (Fin 4) (Fin 4) ℚ :=
  fun i j =>
    if j = 3 ∧ i ≠ 3 then
      st_m2 mat i 3 - ((st_flip mat).map (fun dim =>
        st_m2 mat i dim *
          ((shape (toFin3 (st_newd mat (toFin3 dim))) : ℚ) - 1))).sum
    else st_m2 mat i j

/-- `DataGrid.simplify_transforms(mat)`: decompose `mat` into an axis
re-ordering, a set of axis flips and a residual matrix; when the greedy
per-column argmax is not a permutation of the three spatial axes, return
the identity re-ordering, no flips and `mat` unchanged. -/
def simplify_transforms (g : DataGrid) (mat : Matrix (Fin 4) (Fin 4) ℚ) :
    List (Fin 4) × List (Fin 4) × Matrix (Fin 4) (Fin 4) ℚ :=
  if st_consistent mat then (st_order mat, st_flip mat, st_m3 g.shape mat)
  else ([0, 1, 2], [], mat)

/-- `DataGrid.get_standard()`: new grid with re-ordered shape and the
simplified affine. -/
def get_standard (g : DataGrid) : DataGrid :=
  let r := g.simplify_transforms g.affine
  { shape := fun k => g.shape (toFin3 (r.1.getD k.val 0)), affine := r.2.2 }

/-- `world_axes[axis] = np.argmax(np.abs(self.transform[:, axis]))`: the
world axis with the largest-magnitude component of grid-axis column
`axis`. -/
def world_axes (g : DataGrid) (axis : Fin 3) : Fin 3 :=
  argmax3 (fun r => |g.transform r axis|)

end DataGrid

/-- `list.index(x)`: the first index of `x`, `none` where Python raises
`ValueError`. -/
def indexIn : List (Fin 3) → Fin 3 → Option ℕ
  | [], _ => none
  | a :: l, x => if a = x then some 0 else (indexIn l x).map (· + 1)

/-- Core of `get_ras_axes` as a function of the three dominant world axes:
`grid_axes = [world_axes.index(axis) for axis in range(3)]` followed by the
constant volume axis `3`; a missing axis raises `ValueError`. -/
def rasTriple (x y z : Fin 3) : Except String (List ℕ) :=
  match indexIn [x, y, z] 0, indexIn [x, y, z] 1, indexIn [x, y, z] 2 with
  | some a, some b, some c => .ok [a, b, c, 3]
  | _, _, _ => .error "ValueError: axis is not in list"

/-- `DataGrid.get_ras_axes()`. -/
def DataGrid.get_ras_axes (g : DataGrid) : Except String (List ℕ) :=
  rasTriple (g.world_axes 0) (g.world_axes 1) (g.world_axes 2)

/-- Squared norm of column `j` of a 4x4 matrix (square of
`np.linalg.norm(mat[:, j])`). -/
def colSq (m : Matrix (Fin 4) (Fin 4) ℚ) (j : Fin 4) : ℚ :=
  ∑ i : Fin 4, (m i j) ^ 2

/-- Truncation toward zero: numpy `astype` to an integer dtype. -/
def truncQ (x : ℚ) : ℤ := if 0 ≤ x then ⌊x⌋ else ⌈x⌉

/-- Wrap a mathematical integer to numpy `int32`. -/
def int32cast (z : ℤ) : ℤ := ((z + 2 ^ 31) % 2 ^ 32) - 2 ^ 31

/-- `QpData`: 3D or 4D data defined on a `DataGrid`.  The raw numpy array is
modelled as a total function of a spatial index vector and a volume index;
its in-bounds region is `grid.shape` (+ `nvols` volumes, with volume index
`0` for 3D data), matching the class invariant that the raw array shape
equals the grid shape. -/
structure QpData where
  grid : DataGrid
  nvols : ℕ
  roi : Bool
  raw_2dt : Bool
  vals : (Fin 3 → ℕ) → ℕ → ℚ

namespace QpData

/-- `self.ndim` (derived: 3 iff a single volume). -/
def ndim (d : QpData) : ℕ := if d.nvols = 1 then 3 else 4

/-- `QpData.volume(vol)`: the 3D volume at index `vol`, clamped to the last
volume (`min(vol, nvols-1)`); for 3D data the whole array. -/
def volume (d : QpData) (vol : ℕ) : (Fin 3 → ℕ) → ℚ :=
  fun idx =>
    if d.ndim = 4 then d.vals idx (min vol (d.nvols - 1)) else d.vals idx 0

end QpData

/-- The default probe grid `DataGrid([1, 1, 1], np.identity(4))` used by
`value`/`timeseries` when no grid is given. -/
def unitGrid : DataGrid := ⟨fun _ => 1, 1⟩

namespace QpData

/-- The rounded data-grid position probed by `value`:
`[int(math.floor(v + 0.5)) for v in self.grid.grid_to_grid(pos[:3], from_grid=grid)]`. -/
def valueDp (d : QpData) (pos3 : Fin 3 → ℚ) (grid : Option DataGrid) :
    Fin 3 → ℤ :=
  fun i => ⌊(d.grid.g2g_from (grid.getD unitGrid) pos3 false) i + 1 / 2⌋

/-- `QpData.value(pos, grid)`: nearest-sample lookup; `pos3 = pos[:3]` and
`vol = pos[3]`.  A negative rounded coordinate, or an index outside the raw
array bounds (`IndexError` in the source, caught), yields `0`. -/
def value (d : QpData) (pos3 : Fin 3 → ℚ) (vol : ℕ) (grid : Option DataGrid) : ℚ :=
  let dp := d.valueDp pos3 grid
  if dp 0 < 0 ∨ dp 1 < 0 ∨ dp 2 < 0 then 0
  else if dp 0 < (d.grid.shape 0 : ℤ) ∧ dp 1 < (d.grid.shape 1 : ℤ) ∧
      dp 2 < (d.grid.shape 2 : ℤ) then
    d.volume vol (fun i => (dp i).toNat)
  else 0

/-- `QpData.timeseries(pos, grid)`: the volume series at a point; empty when
the rounded position is negative or out of range. -/
def timeseries (d : QpData) (pos3 : Fin 3 → ℚ) (grid : Option DataGrid) :
    List ℚ :=
  if d.nvols = 1 then [d.value pos3 0 grid]
  else
    let dp := d.valueDp pos3 grid
    if dp 0 < 0 ∨ dp 1 < 0 ∨ dp 2 < 0 then []
    else if dp 0 < (d.grid.shape 0 : ℤ) ∧ dp 1 < (d.grid.shape 1 : ℤ) ∧
        dp 2 < (d.grid.shape 2 : ℤ) then
      (List.range d.nvols).map (fun t => d.vals (fun i => (dp i).toNat) t)
    else []

/-- `QpData.set_roi(roi)`: ROIs must be single-volume. -/
def set_roi (d : QpData) (roi : Bool) : Except String QpData :=
  if roi ∧ d.nvols ≠ 1 then
    .error "ROIs must be static (single volume) 3D data"
  else .ok { d with roi := roi }

/-- `QpData.set_2dt()`: force 3D static data into 2D multi-volume form.  In
the source this mutates the shared grid object (`self.grid.shape[2] = 1`);
the returned record is the post-state of `self`. -/
def set_2dt (d : QpData) : Except String QpData :=
  if d.nvols ≠ 1 ∨ d.grid.shape 2 = 1 then
    .error "Can only force to 2D timeseries if data was originally 3D static"
  else
    .ok { d with
          raw_2dt := true,
          nvols := d.grid.shape 2,
          grid := { d.grid with
                    shape := fun i => if i = 2 then 1 else d.grid.shape i } }

end QpData

/-- All in-bounds spatial index vectors of a shape, in C order. -/
def idxList (shape : Fin 3 → ℕ) : List (Fin 3 → ℕ) :=
  (List.range (shape 0)).flatMap (fun i =>
    (List.range (shape 1)).flatMap (fun j =>
      (List.range (shape 2)).map (fun k =>
        fun a : Fin 3 => if a = 0 then i else if a = 1 then j else k)))

/-- All in-bounds values of a (possibly 4D) array. -/
def valsList (shape : Fin 3 → ℕ) (nvols : ℕ)
    (vals : (Fin 3 → ℕ) → ℕ → ℚ) : List ℚ :=
  (idxList shape).flatMap (fun idx => (List.range nvols).map (fun t => vals idx t))

/-- `array.min()` over the in-bounds values (meaningful for nonempty data,
as in the source where numpy raises on empty input). -/
def listMin (l : List ℚ) : ℚ := l.foldr min (l.headD 0)

/-- `array.max()` over the in-bounds values. -/
def listMax (l : List ℚ) : ℚ := l.foldr max (l.headD 0)

/-- Remove adjacent duplicates; on a sorted list this is `np.unique`'s
deduplication. -/
def dedupAdj : List ℤ → List ℤ
  | [] => []
  | [a] => [a]
  | a :: b :: l => if a = b then dedupAdj (b :: l) else a :: dedupAdj (b :: l)

/-- `QpData.regions()`: `np.unique(raw().astype(np.int))` filtered to the
strictly positive labels; raises `TypeError` on non-ROI data. -/
def QpData.regions (d : QpData) : Except String (List ℤ) :=
  if !d.roi then .error "Only ROIs have distinct regions"
  else .ok ((dedupAdj
    (((valsList d.grid.shape d.nvols d.vals).map truncQ).insertionSort (· ≤ ·))).filter
      (fun r => decide (0 < r)))

/-- External interpolation oracle modelling `scipy.ndimage.affine_transform`
(a library call, not repository code): arguments are the transposed/flipped
input array, the inverted residual transform passed to scipy, the output
shape, the volume count and the spline order; result is the interpolated
output array.  Claims about the resample quantify over its output. -/
def InterpOracle : Type :=
  ((Fin 3 → ℕ) → ℕ → ℚ) → Matrix (Fin 4) (Fin 4) ℚ → (Fin 3 → ℕ) → ℕ → ℕ →
    ((Fin 3 → ℕ) → ℕ → ℚ)

/-- `np.transpose(data, reorder (+ [3]))`: the volume axis is untouched. -/
def transposeVals (reorder : List (Fin 4)) (vals : (Fin 3 → ℕ) → ℕ → ℚ) :
    (Fin 3 → ℕ) → ℕ → ℚ :=
  fun idx t => vals (fun k => idx (toFin3 (reorder.getD k.val 0))) t

/-- Shape of the transposed array: `shape[k] = old_shape[reorder[k]]`. -/
def transposeShape (reorder : List (Fin 4)) (shape : Fin 3 → ℕ) : Fin 3 → ℕ :=
  fun k => shape (toFin3 (reorder.getD k.val 0))

/-- `np.flip(data, dim)` over the spatial axis `dim` of an array of the
given shape. -/
def flipVals (shape : Fin 3 → ℕ) (vals : (Fin 3 → ℕ) → ℕ → ℚ) (dim : Fin 3) :
    (Fin 3 → ℕ) → ℕ → ℚ :=
  fun idx t =>
    vals (fun k => if k = dim then shape dim - 1 - idx dim else idx k) t

/-- `QpData.resample(grid, order)`: transform-simplification, flips and
transpositions, then (only when the residual is not the identity) the scipy
affine interpolation followed by the ROI integer validation and the
`astype(np.int32)` cast.  The scipy call (whether through the diagonal fast
mode or the full affine mode, which compute the same map) is the `interp`
parameter. -/
def QpData.resample (d : QpData) (grid : DataGrid) (order : ℕ)
    (interp : InterpOracle) : Except String QpData :=
  let tmat0 := matInv grid.affine * d.grid.affine
  let r := d.grid.simplify_transforms tmat0
  let reorder := r.1
  let flip := r.2.1
  let tmatrix := r.2.2
  let data1 := if reorder ≠ [0, 1, 2] then transposeVals reorder d.vals else d.vals
  let shape1 := transposeShape reorder d.grid.shape
  let data2 := flip.foldl (fun dat dim => flipVals shape1 dat (toFin3 dim)) data1
  if is_identity tmatrix then
    .ok ⟨grid, d.nvols, d.roi, false, data2⟩
  else
    let tinv := matInv tmatrix
    let out := interp data2 tinv grid.shape d.nvols order
    if d.roi then
      let vl := valsList grid.shape d.nvols out
      if listMin vl < 0 ∨ listMax vl > 2 ^ 32 then
        .error "ROIs must contain values between 0 and 2**32"
      else if !(vl.any (fun x => x.den == 1)) then
        .error "ROIs must contain integers only"
      else
        .ok ⟨grid, d.nvols, d.roi, false,
          fun idx t => (int32cast (truncQ (out idx t)) : ℚ)⟩
    else .ok ⟨grid, d.nvols, d.roi, false, out⟩

/-- Concrete single-volume dataset on the identity 2x2x2 grid. -/
def c3data : QpData :=
  ⟨⟨fun _ => 2, 1⟩, 1, false, false, fun idx _ => (idx 0 : ℚ)⟩

/-- Concrete 4x4x4 static dataset used by the C4 counterexample. -/
def c4data : QpData := ⟨⟨fun _ => 4, 1⟩, 1, false, false, fun _ _ => 0⟩

/-- Extract the success value of an `Except` (the checked cases are always
successes). -/
def getOk {α : Type} (e : Except String α) (dflt : α) : α :=
  match e with
  | .ok v => v
  | .error _ => dflt

/-- Concrete 2x1x1 ROI with values `5/2` and `1`. -/
def c10data : QpData :=
  ⟨⟨fun i => if i = 0 then 2 else 1, 1⟩, 1, true, false,
   fun idx _ => if idx 0 = 0 then mkRat 5 2 else 1⟩

/-- Source grid affine for the C2 scenario: spacing 2 along the x axis. -/
def c2affine : Matrix (Fin 4) (Fin 4) ℚ :=
  !![2, 0, 0, 0; 0, 1, 0, 0; 0, 0, 1, 0; 0, 0, 0, 1]

/-- 2x1x1 shape of the C2 scenario. -/
def c2shape : Fin 3 → ℕ := fun i => if i = 0 then 2 else 1

/-- ROI dataset on the spacing-2 grid. -/
def c2data : QpData := ⟨⟨c2shape, c2affine⟩, 1, true, false, fun _ _ => 1⟩

/-- Identity-affine target grid of the same shape. -/
def c2target : DataGrid := ⟨c2shape, 1⟩

/-- Interpolation outcome for the C2 scenario: spline interpolation that
yields the integer `0` at the first voxel and the fractional value `1/2` at
the second. -/
def c2interp : InterpOracle :=
  fun _ _ _ _ _ => fun idx _ => if idx 0 = 0 then 0 else mkRat 1 2

/-- Squared norm of a 3-vector (square of `np.linalg.norm(vec)`). -/
def normSq3 (vec : Fin 3 → ℚ) : ℚ := ∑ i, (vec i) ^ 2

/-- The per-axis test of `is_ortho_vector`, squared to stay rational: for
`tol = EQ_TOL / shape ≤ EQ_TOL < 1` and `mod = norm(vec) ≥ 0`, the source's
`abs(abs(val / mod) - 1) < tol` is equivalent to
`(1 - tol)·mod < |val| < (1 + tol)·mod`, i.e. to these squared
comparisons (both sides nonnegative). -/
def ortho_cond (vec : Fin 3 → ℚ) (shape : ℕ) (axis : Fin 3) : Prop :=
  (1 - EQ_TOL / shape) ^ 2 * normSq3 vec < (vec axis) ^ 2 ∧
  (vec axis) ^ 2 < (1 + EQ_TOL / shape) ^ 2 * normSq3 vec

instance (vec : Fin 3 → ℚ) (shape : ℕ) (axis : Fin 3) :
    Decidable (ortho_cond vec shape axis) := by
  unfold ortho_cond
  infer_instance

/-- `is_ortho_vector(vec, shape)`: first axis on which the vector is
concentrated (within `EQ_TOL / shape`), with `copysign(1, val)`; `none`
where the source returns `None, None`. -/
def is_ortho_vector (vec : Fin 3 → ℚ) (shape : ℕ) : Option (Fin 3 × ℚ) :=
  (List.finRange 3).findSome? (fun axis =>
    if ortho_cond vec shape axis then
      some (axis, if vec axis < 0 then -1 else 1)
    else none)

/-- `data_axes = range(3); del data_axes[data_naxis]`: the two retained
axes, in ascending order. -/
def sliceAxes (naxis : Fin 3) : Fin 3 × Fin 3 :=
  (if naxis = 0 then 1 else 0, if naxis = 2 then 1 else 2)

namespace QpData

/-- `data_origin = self.grid.grid_to_grid([0, 0, 0], from_grid=plane)`. -/
def sliceOrigin0 (d : QpData) (plane : DataGrid) : Fin 3 → ℚ :=
  d.grid.g2g_from plane (fun _ => 0) false

/-- `data_normal = self.grid.grid_to_grid([0, 0, 1], from_grid=plane,
direction=True)`. -/
def sliceNormal (d : QpData) (plane : DataGrid) : Fin 3 → ℚ :=
  d.grid.g2g_from plane (fun i => if i = 2 then 1 else 0) true

/-- `data_scaled_normal[i] = data_normal[i] * spacing[i] * spacing[i]`. -/
def sliceScaledNormal (d : QpData) (plane : DataGrid) : Fin 3 → ℚ :=
  fun i => d.sliceNormal plane i * d.grid.spacing_sq i

/-- `data_naxis = np.argmax(np.absolute(data_scaled_normal))`. -/
def sliceNaxis (d : QpData) (plane : DataGrid) : Fin 3 :=
  argmax3 (fun i => |d.sliceScaledNormal plane i|)

/-- `slice_basis[k]`: unit along the retained axis, `-(dsn[axis]/dsn[naxis])`
along the normal axis (the retained axes never coincide with `naxis`). -/
def sliceBasis (d : QpData) (plane : DataGrid) (k : Fin 2) : Fin 3 → ℚ :=
  let naxis := d.sliceNaxis plane
  let axis := if k = 0 then (sliceAxes naxis).1 else (sliceAxes naxis).2
  fun i =>
    if i = axis then 1
    else if i = naxis then
      -(d.sliceScaledNormal plane axis / d.sliceScaledNormal plane naxis)
    else 0

/-- `slice_shape[k] = rawdata.shape[axis]` (raw shape = grid shape). -/
def sliceShape (d : QpData) (plane : DataGrid) (k : Fin 2) : ℕ :=
  let naxis := d.sliceNaxis plane
  d.grid.shape (if k = 0 then (sliceAxes naxis).1 else (sliceAxes naxis).2)

/-- Row `k` of `trans_v` before the column deletion:
`self.grid.grid_to_grid(slice_basis[k], to_grid=plane, direction=True)`. -/
def sliceTransRow (d : QpData) (plane : DataGrid) (k : Fin 2) : Fin 3 → ℚ :=
  d.grid.g2g_to plane (d.sliceBasis plane k) true

/-- `trans_v = np.delete(trans_v, 2, 1)`: keep components 0 and 1. -/
def sliceTransV (d : QpData) (plane : DataGrid) : Matrix (Fin 2) (Fin 2) ℚ :=
  fun r c => d.sliceTransRow plane r (Fin.castLE (by norm_num) c)

/-- `slice_origin`: zero except
`np.dot(data_origin, data_scaled_normal) / data_scaled_normal[naxis]` on the
normal axis. -/
def sliceOriginVec (d : QpData) (plane : DataGrid) : Fin 3 → ℚ :=
  let naxis := d.sliceNaxis plane
  fun i =>
    if i = naxis then
      (∑ j, d.sliceOrigin0 plane j * d.sliceScaledNormal plane j) /
        d.sliceScaledNormal plane naxis
    else 0

/-- `data_offset = data_origin - slice_origin + 0.5`. -/
def sliceDataOffset (d : QpData) (plane : DataGrid) : Fin 3 → ℚ :=
  fun i => d.sliceOrigin0 plane i - d.sliceOriginVec plane i + 1 / 2

/-- `offset = -self.grid.grid_to_grid(data_offset, to_grid=plane,
direction=True)[:2]`. -/
def sliceOffset (d : QpData) (plane : DataGrid) : Fin 2 → ℚ :=
  fun k =>
    -(d.grid.g2g_to plane (d.sliceDataOffset plane) true (Fin.castLE (by norm_num) k))

/-- `pos = int(math.floor(data_origin[data_naxis] + 0.5))`. -/
def slicePos (d : QpData) (plane : DataGrid) : ℤ :=
  ⌊d.sliceOrigin0 plane (d.sliceNaxis plane) + 1 / 2⌋

end QpData

/-- Index stepping of `_get_slice(length, sign)`: forward for sign `+1`,
reversed (`slice(length-1, None, -1)`) otherwise. -/
def applySign (sign : ℚ) (len o : ℕ) : ℕ :=
  if sign = 1 then o else len - 1 - o

/-- `rawdata[slices]` in the fast path: output dim 0 follows the smaller
retained axis, dim 1 the larger, the normal axis is fixed at `pos` (the
source indexes with two slice objects and one integer). -/
def QpData.sliceFastData (d : QpData) (plane : DataGrid) (vol : ℕ)
    (ax1 ax2 : Fin 3) (s1 s2 : ℚ) : ℕ → ℕ → ℚ :=
  fun u v =>
    let naxis := d.sliceNaxis plane
    let a := (sliceAxes naxis).1
    d.volume vol (fun ax =>
      if ax = naxis then (d.slicePos plane).toNat
      else
        applySign (if ax = ax1 then s1 else s2) (d.grid.shape ax)
          (if ax = a then u else v))

/-- External oracle for `pg.affineSlice` (the repository's private pyqtgraph
copy in `quantiphyse/data/functions.py`, not among the sources): arguments
are the 3D volume, the output lengths, the slice origin, the two basis
vectors, the interpolation order and the constant fill value; result is the
extracted 2D array. -/
def AffineSliceOracle : Type :=
  ((Fin 3 → ℕ) → ℚ) → (ℕ × ℕ) → (Fin 3 → ℚ) → ((Fin 3 → ℚ) × (Fin 3 → ℚ)) →
    ℕ → ℚ → (ℕ → ℕ → ℚ)

/-- Return value of `slice_data`: data, mask, 2x2 transform, 2D offset. -/
structure SliceResult where
  sdata : ℕ → ℕ → ℚ
  smask : ℕ → ℕ → ℚ
  trans_v : Matrix (Fin 2) (Fin 2) ℚ
  offset : Fin 2 → ℚ

/-- `QpData.slice_data(plane, vol, interp_order)`: extract a 2D slice.  The
fast path indexes the raw array directly (all-ones mask in range; all-zero
data and mask out of range); the general path calls the external
`affineSlice` (nearest-neighbour and all-ones mask for ROIs; sentinel
`dmin - 100` fill and sentinel-based masking otherwise). -/
def QpData.sliceDmin (d : QpData) (vol : ℕ) : ℚ :=
  listMin ((idxList d.grid.shape).map (d.volume vol))

/-- The general-path call to the external `affineSlice`. -/
def QpData.sliceGeneralData (d : QpData) (plane : DataGrid) (vol : ℕ)
    (interp_order : ℕ) (affineSlice : AffineSliceOracle) (cval : ℚ) :
    ℕ → ℕ → ℚ :=
  affineSlice (d.volume vol) (d.sliceShape plane 0, d.sliceShape plane 1)
    (d.sliceOriginVec plane) (d.sliceBasis plane 0, d.sliceBasis plane 1)
    interp_order cval

def QpData.slice_data (d : QpData) (plane : DataGrid) (vol : ℕ)
    (interp_order : ℕ) (affineSlice : AffineSliceOracle) : SliceResult :=
  match is_ortho_vector (d.sliceBasis plane 0) (d.sliceShape plane 0),
      is_ortho_vector (d.sliceBasis plane 1) (d.sliceShape plane 0) with
  | some (ax1, s1), some (ax2, s2) =>
    if 0 ≤ d.slicePos plane ∧
        d.slicePos plane < (d.grid.shape (d.sliceNaxis plane) : ℤ) then
      ⟨d.sliceFastData plane vol ax1 ax2 s1 s2, fun _ _ => 1,
       d.sliceTransV plane, d.sliceOffset plane⟩
    else
      ⟨fun _ _ => 0, fun _ _ => 0, d.sliceTransV plane, d.sliceOffset plane⟩
  | _, _ =>
    if d.roi then
      ⟨d.sliceGeneralData plane vol 0 affineSlice 0, fun _ _ => 1,
       d.sliceTransV plane, d.sliceOffset plane⟩
    else
      ⟨fun u v =>
        if d.sliceGeneralData plane vol interp_order affineSlice
            (d.sliceDmin vol - 100) u v < d.sliceDmin vol then 0
        else d.sliceGeneralData plane vol interp_order affineSlice
            (d.sliceDmin vol - 100) u v,
       fun u v =>
        if d.sliceGeneralData plane vol interp_order affineSlice
            (d.sliceDmin vol - 100) u v < d.sliceDmin vol then 0
        else 1,
       d.sliceTransV plane, d.sliceOffset plane⟩

/-- Dataset on the identity 2x2x2 grid for the C6 witness; the plane is the
grid itself (an axis-aligned slice). -/
def d6 : QpData := ⟨⟨fun _ => 2, 1⟩, 1, false, false, fun _ _ => 3⟩

theorem EQ_TOL_eq : EQ_TOL = 1 / 1000 := by
  unfold EQ_TOL
  rw [Rat.mkRat_eq_div]
  norm_num

theorem matInv_mul {n : ℕ} (m : Matrix (Fin n) (Fin n) ℚ) (h : m.det ≠ 0) :
    matInv m * m = 1 := by
  rw [matInv, Matrix.smul_mul, Matrix.adjugate_mul, smul_smul,
    inv_mul_cancel₀ h, one_smul]

theorem matInv_one {n : ℕ} : matInv (1 : Matrix (Fin n) (Fin n) ℚ) = 1 := by
  rw [matInv, Matrix.adjugate_one, Matrix.det_one, inv_one, one_smul]

/-- Round-trip of the vector transforms: `world_to_grid3` undoes
`grid_to_world3` whenever the 3x3 linear part is invertible. -/
theorem world_to_grid3_grid_to_world3 (g : DataGrid) (v : Fin 3 → ℚ)
    (hdet : g.transform.det ≠ 0) (direction : Bool) :
    g.world_to_grid3 (g.grid_to_world3 v direction) direction = v := by
  have key : ∀ w, g.inv_transform.mulVec (g.transform.mulVec w) = w := by
    intro w
    rw [DataGrid.inv_transform, Matrix.mulVec_mulVec, matInv_mul g.transform hdet,
      Matrix.one_mulVec]
  cases direction with
  | false =>
    show g.inv_transform.mulVec
      (fun i => (g.transform.mulVec v i + g.origin i) - g.origin i) = v
    have h1 : (fun i => (g.transform.mulVec v i + g.origin i) - g.origin i)
        = g.transform.mulVec v := by
      funext i
      ring
    rw [h1]
    exact key v
  | true => exact key v

/-- `grid_to_world` on an explicit 3-element list. -/
theorem grid_to_world_len3 (g : DataGrid) (a b d : ℚ) (dir : Bool) :
    g.grid_to_world [a, b, d] dir =
      [g.grid_to_world3 (DataGrid.vec3 [a, b, d]) dir 0,
       g.grid_to_world3 (DataGrid.vec3 [a, b, d]) dir 1,
       g.grid_to_world3 (DataGrid.vec3 [a, b, d]) dir 2] := rfl

/-- `grid_to_world` on an explicit 4-element list. -/
theorem grid_to_world_len4 (g : DataGrid) (a b d e : ℚ) (dir : Bool) :
    g.grid_to_world [a, b, d, e] dir =
      [g.grid_to_world3 (DataGrid.vec3 [a, b, d, e]) dir 0,
       g.grid_to_world3 (DataGrid.vec3 [a, b, d, e]) dir 1,
       g.grid_to_world3 (DataGrid.vec3 [a, b, d, e]) dir 2, e] := rfl

/-- `world_to_grid` on an explicit 3-element list. -/
theorem world_to_grid_len3 (g : DataGrid) (a b d : ℚ) (dir : Bool) :
    g.world_to_grid [a, b, d] dir =
      [g.world_to_grid3 (DataGrid.vec3 [a, b, d]) dir 0,
       g.world_to_grid3 (DataGrid.vec3 [a, b, d]) dir 1,
       g.world_to_grid3 (DataGrid.vec3 [a, b, d]) dir 2] := rfl

/-- `world_to_grid` on an explicit 4-element list. -/
theorem world_to_grid_len4 (g : DataGrid) (a b d e : ℚ) (dir : Bool) :
    g.world_to_grid [a, b, d, e] dir =
      [g.world_to_grid3 (DataGrid.vec3 [a, b, d, e]) dir 0,
       g.world_to_grid3 (DataGrid.vec3 [a, b, d, e]) dir 1,
       g.world_to_grid3 (DataGrid.vec3 [a, b, d, e]) dir 2, e] := rfl

/-- `vec3` recovers the vector from a 3-element list of its entries. -/
theorem vec3_apps3 (w : Fin 3 → ℚ) : DataGrid.vec3 [w 0, w 1, w 2] = w := by
  funext i
  fin_cases i <;> rfl

/-- `vec3` ignores a 4th entry. -/
theorem vec3_apps4 (w : Fin 3 → ℚ) (e : ℚ) :
    DataGrid.vec3 [w 0, w 1, w 2, e] = w := by
  funext i
  fin_cases i <;> rfl

/-- C1 helper: the round trip on `g2g_from` with both grids equal. -/
theorem g2g_from_self (g : DataGrid) (v : Fin 3 → ℚ)
    (hdet : g.transform.det ≠ 0) (direction : Bool) :
    g.g2g_from g v direction = v :=
  world_to_grid3_grid_to_world3 g v hdet direction

/-- C1: for a valid grid (invertible linear part) and any 3D or 4D
coordinate, `world_to_grid (grid_to_world c)` returns `c` exactly, and for a
4D coordinate the fourth component is passed through unchanged by both
directions.  (Floating-point tolerance in the claim becomes exact equality
over `ℚ`.) -/
theorem c1_world_grid_roundtrip (g : DataGrid) (c : List ℚ)
    (hdet : g.transform.det ≠ 0) (hlen : c.length = 3 ∨ c.length = 4) :
    g.world_to_grid (g.grid_to_world c false) false = c ∧
    (∀ direction : Bool, c.length = 4 →
      (g.grid_to_world c direction).getD 3 0 = c.getD 3 0 ∧
      (g.world_to_grid c direction).getD 3 0 = c.getD 3 0) := by
  rcases c with _ | ⟨a, _ | ⟨b, _ | ⟨d, _ | ⟨e, rest⟩⟩⟩⟩ <;>
    simp only [List.length] at hlen
  · omega
  · omega
  · omega
  · -- 3-element coordinate
    constructor
    · rw [grid_to_world_len3, world_to_grid_len3, vec3_apps3,
        world_to_grid3_grid_to_world3 g _ hdet false]
      rfl
    · intro direction h4
      simp at h4
  · rcases rest with _ | ⟨f, rest'⟩
    · -- 4-element coordinate
      constructor
      · rw [grid_to_world_len4, world_to_grid_len4, vec3_apps4,
          world_to_grid3_grid_to_world3 g _ hdet false]
        rfl
      · intro direction _
        constructor <;> rfl
    · simp only [List.length] at hlen
      omega

/-- Witness for C1 at the identity grid and coordinate `[1/2, 2, 3, 5]`. -/
theorem c1_world_grid_roundtrip_witness :
    (DataGrid.mk (fun _ => 4) 1).transform.det ≠ 0 ∧
    ((DataGrid.mk (fun _ => 4) 1).world_to_grid
      ((DataGrid.mk (fun _ => 4) 1).grid_to_world [1/2, 2, 3, 5] false) false
        = [1/2, 2, 3, 5] ∧
     (∀ direction : Bool, ([1/2, 2, 3, 5] : List ℚ).length = 4 →
      ((DataGrid.mk (fun _ => 4) 1).grid_to_world [1/2, 2, 3, 5] direction).getD 3 0
        = ([1/2, 2, 3, 5] : List ℚ).getD 3 0 ∧
      ((DataGrid.mk (fun _ => 4) 1).world_to_grid [1/2, 2, 3, 5] direction).getD 3 0
        = ([1/2, 2, 3, 5] : List ℚ).getD 3 0)) := by
  have htr : (DataGrid.mk (fun _ => 4) 1).transform = 1 := by
    funext i j
    fin_cases i <;> fin_cases j <;> rfl
  have hdet : (DataGrid.mk (fun _ => 4) 1).transform.det ≠ 0 := by
    rw [htr, Matrix.det_one]
    norm_num
  exact ⟨hdet, c1_world_grid_roundtrip (DataGrid.mk (fun _ => 4) 1)
    [1/2, 2, 3, 5] hdet (Or.inr rfl)⟩

/-- C7: `grid_to_grid` succeeds exactly when exactly one of
`from_grid`/`to_grid` is supplied; supplying neither or both raises the
`RuntimeError`, whatever the coordinate is. -/
theorem c7_grid_to_grid_arity (self : DataGrid) (c : List ℚ) (dir : Bool)
    (hlen : c.length = 3 ∨ c.length = 4) :
    (∀ f : DataGrid, isOkB (self.grid_to_grid c (some f) none dir) = true) ∧
    (∀ t : DataGrid, isOkB (self.grid_to_grid c none (some t) dir) = true) ∧
    (∀ c' : List ℚ, self.grid_to_grid c' none none dir =
      .error "Exactly one of from_grid and to_grid must be specified") ∧
    (∀ (c' : List ℚ) (f t : DataGrid), self.grid_to_grid c' (some f) (some t) dir =
      .error "Exactly one of from_grid and to_grid must be specified") :=
  ⟨fun _ => rfl, fun _ => rfl, fun _ => rfl, fun _ _ _ => rfl⟩

/-- Witness for C7 at the identity grid and coordinate `[1, 2, 3]`. -/
theorem c7_grid_to_grid_arity_witness :
    (([1, 2, 3] : List ℚ).length = 3 ∨ ([1, 2, 3] : List ℚ).length = 4) ∧
    isOkB ((DataGrid.mk (fun _ => 2) 1).grid_to_grid [1, 2, 3]
      (some (DataGrid.mk (fun _ => 2) 1)) none false) = true ∧
    (DataGrid.mk (fun _ => 2) 1).grid_to_grid [1, 2, 3] none none false =
      .error "Exactly one of from_grid and to_grid must be specified" :=
  ⟨Or.inl rfl,
   (c7_grid_to_grid_arity (DataGrid.mk (fun _ => 2) 1) [1, 2, 3] false
      (Or.inl rfl)).1 (DataGrid.mk (fun _ => 2) 1),
   (c7_grid_to_grid_arity (DataGrid.mk (fun _ => 2) 1) [1, 2, 3] false
      (Or.inl rfl)).2.2.1 [1, 2, 3]⟩

/-- `rasTriple` succeeds exactly when the three dominant axes are pairwise
distinct. -/
theorem rasTriple_ok_iff (x y z : Fin 3) :
    isOkB (rasTriple x y z) = true ↔ (x ≠ y ∧ x ≠ z ∧ y ≠ z) := by
  revert x y z
  decide

/-- Any success of `rasTriple` is a 4-element list ending in `3`. -/
theorem rasTriple_shape (x y z : Fin 3) (l : List ℕ)
    (h : rasTriple x y z = .ok l) : l.length = 4 ∧ l.getD 3 0 = 3 := by
  unfold rasTriple at h
  rcases h1 : indexIn [x, y, z] 0 with _ | a <;>
    rcases h2 : indexIn [x, y, z] 1 with _ | b <;>
      rcases h3 : indexIn [x, y, z] 2 with _ | c <;>
        rw [h1, h2, h3] at h <;> simp only [Except.ok.injEq] at h <;>
          try exact absurd h (by simp)
  subst h
  exact ⟨rfl, rfl⟩

/-- Pairwise distinctness of the three values characterises injectivity of a
`Fin 3` endofunction. -/
theorem fin3_injective_iff (f : Fin 3 → Fin 3) :
    Function.Injective f ↔ (f 0 ≠ f 1 ∧ f 0 ≠ f 2 ∧ f 1 ≠ f 2) := by
  constructor
  · intro h
    refine ⟨fun he => ?_, fun he => ?_, fun he => ?_⟩ <;>
      exact absurd (h he) (by decide)
  · rintro ⟨h01, h02, h12⟩ a b hab
    fin_cases a <;> fin_cases b <;> first | rfl | simp_all

/-- C9: `get_ras_axes` returns four integers (ending in `3`) exactly when
the per-grid-axis dominant world direction assignment is a bijection over
`Fin 3`; when two grid-axis columns share a dominant world axis it raises
instead of returning. -/
theorem c9_get_ras_axes (g : DataGrid) :
    (isOkB g.get_ras_axes = true ↔ Function.Bijective g.world_axes) ∧
    (∀ i j : Fin 3, i ≠ j → g.world_axes i = g.world_axes j →
      isOkB g.get_ras_axes = false) ∧
    (∀ l : List ℕ, g.get_ras_axes = .ok l → l.length = 4 ∧ l.getD 3 0 = 3) := by
  have hiff := rasTriple_ok_iff (g.world_axes 0) (g.world_axes 1) (g.world_axes 2)
  have hinj := fin3_injective_iff g.world_axes
  have hbij : Function.Injective g.world_axes ↔ Function.Bijective g.world_axes :=
    Finite.injective_iff_bijective
  have hmain : isOkB g.get_ras_axes = true ↔ Function.Bijective g.world_axes :=
    hiff.trans (hinj.symm.trans hbij)
  refine ⟨hmain, ?_, ?_⟩
  · intro i j hne heq
    cases hok : isOkB g.get_ras_axes with
    | false => rfl
    | true => exact absurd (((hmain.mp hok).injective) heq) hne
  · intro l h
    exact rasTriple_shape _ _ _ l h

/-- Witness for C9 at the identity grid (bijective dominant axes). -/
theorem c9_get_ras_axes_witness :
    Function.Bijective (DataGrid.mk (fun _ => 2) 1).world_axes ∧
    isOkB (DataGrid.mk (fun _ => 2) 1).get_ras_axes = true := by
  have hbij : Function.Bijective (DataGrid.mk (fun _ => 2) 1).world_axes := by
    decide
  exact ⟨hbij, (c9_get_ras_axes (DataGrid.mk (fun _ => 2) 1)).1.mpr hbij⟩

theorem spacing_sq_eq_colSq (g : DataGrid) (k : Fin 3) :
    g.spacing_sq k = colSq g.affine k.castSucc := rfl

theorem castSucc0 : (0 : Fin 3).castSucc = (0 : Fin 4) := rfl

theorem castSucc1 : (1 : Fin 3).castSucc = (1 : Fin 4) := rfl

theorem castSucc2 : (2 : Fin 3).castSucc = (2 : Fin 4) := rfl

/-- If the sorted `dim_order` equals `[0, 1, 2]`, the three chosen rows are
one of the six permutations of `(0, 1, 2)` inside `Fin 4`. -/
theorem sorted_triple_cases (a b c : Fin 4)
    (h : ([a.val, b.val, c.val].insertionSort (· ≤ ·)) = [0, 1, 2]) :
    (a = 0 ∧ b = 1 ∧ c = 2) ∨ (a = 0 ∧ b = 2 ∧ c = 1) ∨
    (a = 1 ∧ b = 0 ∧ c = 2) ∨ (a = 1 ∧ b = 2 ∧ c = 0) ∨
    (a = 2 ∧ b = 0 ∧ c = 1) ∨ (a = 2 ∧ b = 1 ∧ c = 0) := by
  revert h
  revert a b c
  decide

/-- The origin-adjust and flip steps do not change squared column norms of
the three spatial columns. -/
theorem st_m3_colSq (shape : Fin 3 → ℕ) (mat : Matrix (Fin 4) (Fin 4) ℚ)
    (j : Fin 4) (hj : j ≠ 3) :
    colSq (DataGrid.st_m3 shape mat) j = colSq (DataGrid.st_m1 mat) j := by
  unfold colSq
  refine Finset.sum_congr rfl (fun i _ => ?_)
  have hcond : ¬(j = 3 ∧ i ≠ 3) := fun hh => hj hh.1
  show (if j = 3 ∧ i ≠ 3 then _ else DataGrid.st_m2 mat i j) ^ 2 = _
  rw [if_neg hcond]
  show (if j ∈ DataGrid.st_flip mat then -(DataGrid.st_m1 mat i j)
    else DataGrid.st_m1 mat i j) ^ 2 = _
  split_ifs <;> ring

/-- Transfer of squared column norms through the transposition step. -/
theorem st_m1_colSq_eq (mat : Matrix (Fin 4) (Fin 4) ℚ) (j k : Fin 4)
    (h : ∀ i, DataGrid.st_m1 mat i j = mat i k) :
    colSq (DataGrid.st_m1 mat) j = colSq mat k := by
  unfold colSq
  exact Finset.sum_congr rfl (fun i _ => by rw [h i])

theorem perm3_bca {α : Type} (x y z : α) : [y, z, x].Perm [x, y, z] :=
  (List.Perm.cons y (List.Perm.swap x z [])).trans (List.Perm.swap x y [z])

theorem perm3_cab {α : Type} (x y z : α) : [z, x, y].Perm [x, y, z] :=
  (List.Perm.swap x z [y]).trans (List.Perm.cons x (List.Perm.swap y z []))

theorem perm3_cba {α : Type} (x y z : α) : [z, y, x].Perm [x, y, z] :=
  (List.Perm.swap y z [x]).trans (perm3_bca x y z)

/-- When the `simplify_transforms` guard holds, the squared spatial column
norms of the simplified matrix are a permutation of those of the input. -/
theorem st_colSq_perm (mat : Matrix (Fin 4) (Fin 4) ℚ)
    (hcon : DataGrid.st_consistent mat = true) (shape : Fin 3 → ℕ) :
    [colSq (DataGrid.st_m3 shape mat) 0, colSq (DataGrid.st_m3 shape mat) 1,
     colSq (DataGrid.st_m3 shape mat) 2].Perm
    [colSq mat 0, colSq mat 1, colSq mat 2] := by
  have hs : (((DataGrid.st_order mat).map Fin.val).insertionSort (· ≤ ·))
      = [0, 1, 2] := of_decide_eq_true hcon
  have h6 := sorted_triple_cases (DataGrid.st_newd mat 0) (DataGrid.st_newd mat 1)
    (DataGrid.st_newd mat 2) hs
  rw [st_m3_colSq shape mat 0 (by decide), st_m3_colSq shape mat 1 (by decide),
    st_m3_colSq shape mat 2 (by decide)]
  rcases h6 with ⟨ha, hb, hc⟩ | ⟨ha, hb, hc⟩ | ⟨ha, hb, hc⟩ | ⟨ha, hb, hc⟩ |
    ⟨ha, hb, hc⟩ | ⟨ha, hb, hc⟩
  · rw [st_m1_colSq_eq mat 0 0 (fun i => by
        simp only [DataGrid.st_m1]; rw [ha, hb, hc]; rfl),
      st_m1_colSq_eq mat 1 1 (fun i => by
        simp only [DataGrid.st_m1]; rw [ha, hb, hc]; rfl),
      st_m1_colSq_eq mat 2 2 (fun i => by
        simp only [DataGrid.st_m1]; rw [ha, hb, hc]; rfl)]
  · rw [st_m1_colSq_eq mat 0 0 (fun i => by
        simp only [DataGrid.st_m1]; rw [ha, hb, hc]; rfl),
      st_m1_colSq_eq mat 1 2 (fun i => by
        simp only [DataGrid.st_m1]; rw [ha, hb, hc]; rfl),
      st_m1_colSq_eq mat 2 1 (fun i => by
        simp only [DataGrid.st_m1]; rw [ha, hb, hc]; rfl)]
    exact List.Perm.cons _ (List.Perm.swap _ _ _)
  · rw [st_m1_colSq_eq mat 0 1 (fun i => by
        simp only [DataGrid.st_m1]; rw [ha, hb, hc]; rfl),
      st_m1_colSq_eq mat 1 0 (fun i => by
        simp only [DataGrid.st_m1]; rw [ha, hb, hc]; rfl),
      st_m1_colSq_eq mat 2 2 (fun i => by
        simp only [DataGrid.st_m1]; rw [ha, hb, hc]; rfl)]
    exact List.Perm.swap _ _ _
  · rw [st_m1_colSq_eq mat 0 2 (fun i => by
        simp only [DataGrid.st_m1]; rw [ha, hb, hc]; rfl),
      st_m1_colSq_eq mat 1 0 (fun i => by
        simp only [DataGrid.st_m1]; rw [ha, hb, hc]; rfl),
      st_m1_colSq_eq mat 2 1 (fun i => by
        simp only [DataGrid.st_m1]; rw [ha, hb, hc]; rfl)]
    exact perm3_cab _ _ _
  · rw [st_m1_colSq_eq mat 0 1 (fun i => by
        simp only [DataGrid.st_m1]; rw [ha, hb, hc]; rfl),
      st_m1_colSq_eq mat 1 2 (fun i => by
        simp only [DataGrid.st_m1]; rw [ha, hb, hc]; rfl),
      st_m1_colSq_eq mat 2 0 (fun i => by
        simp only [DataGrid.st_m1]; rw [ha, hb, hc]; rfl)]
    exact perm3_bca _ _ _
  · rw [st_m1_colSq_eq mat 0 2 (fun i => by
        simp only [DataGrid.st_m1]; rw [ha, hb, hc]; rfl),
      st_m1_colSq_eq mat 1 1 (fun i => by
        simp only [DataGrid.st_m1]; rw [ha, hb, hc]; rfl),
      st_m1_colSq_eq mat 2 0 (fun i => by
        simp only [DataGrid.st_m1]; rw [ha, hb, hc]; rfl)]
    exact perm3_cba _ _ _

/-- C8: `get_standard` produces a grid whose per-axis spacings are a
reordering of the original grid's spacings (stated through the rational
squared spacings, which determine the nonnegative spacings). -/
theorem c8_get_standard_spacing (g : DataGrid) :
    [g.get_standard.spacing_sq 0, g.get_standard.spacing_sq 1,
     g.get_standard.spacing_sq 2].Perm
    [g.spacing_sq 0, g.spacing_sq 1, g.spacing_sq 2] := by
  by_cases hcon : DataGrid.st_consistent g.affine = true
  · have haff : g.get_standard.affine = DataGrid.st_m3 g.shape g.affine := by
      simp [DataGrid.get_standard, DataGrid.simplify_transforms, hcon]
    simp only [spacing_sq_eq_colSq, haff, castSucc0, castSucc1, castSucc2]
    exact st_colSq_perm g.affine hcon g.shape
  · have haff : g.get_standard.affine = g.affine := by
      simp [DataGrid.get_standard, DataGrid.simplify_transforms, hcon]
    simp only [spacing_sq_eq_colSq, haff]
    exact List.Perm.refl _

theorem st_order_one :
    DataGrid.st_order (1 : Matrix (Fin 4) (Fin 4) ℚ) = [0, 1, 2] := by decide

theorem st_flip_one :
    DataGrid.st_flip (1 : Matrix (Fin 4) (Fin 4) ℚ) = [] := by decide

theorem st_consistent_one :
    DataGrid.st_consistent (1 : Matrix (Fin 4) (Fin 4) ℚ) = true := by decide

theorem st_m2_one :
    DataGrid.st_m2 (1 : Matrix (Fin 4) (Fin 4) ℚ) = 1 := by decide

theorem st_m3_one (shape : Fin 3 → ℕ) :
    DataGrid.st_m3 shape (1 : Matrix (Fin 4) (Fin 4) ℚ) = 1 := by
  funext i j
  unfold DataGrid.st_m3
  rw [st_flip_one]
  simp only [List.map_nil, List.sum_nil, sub_zero, st_m2_one]
  split_ifs with h
  · rw [h.1]
  · rfl

/-- `simplify_transforms` on the identity: identity order, no flips,
identity residual. -/
theorem simplify_transforms_one (g : DataGrid) :
    g.simplify_transforms (1 : Matrix (Fin 4) (Fin 4) ℚ) =
      ([0, 1, 2], [], (1 : Matrix (Fin 4) (Fin 4) ℚ)) := by
  unfold DataGrid.simplify_transforms
  rw [st_consistent_one, if_pos rfl, st_order_one, st_flip_one, st_m3_one]

theorem is_identity_one : is_identity 1 = true := by
  unfold is_identity
  simp only [sub_self, abs_zero]
  decide

/-- C3: resampling onto the data's own grid (same shape and affine,
invertible) returns the sample array unchanged, whatever the interpolation
oracle and order: the interpolation branch is never entered. -/
theorem c3_resample_self (d : QpData) (target : DataGrid) (order : ℕ)
    (interp : InterpOracle) (hsh : target.shape = d.grid.shape)
    (haf : target.affine = d.grid.affine) (hdet : d.grid.affine.det ≠ 0) :
    d.resample target order interp =
      .ok ⟨target, d.nvols, d.roi, false, d.vals⟩ := by
  have h1 : matInv target.affine * d.grid.affine = 1 := by
    rw [haf]
    exact matInv_mul _ hdet
  simp only [QpData.resample, h1, simplify_transforms_one]
  simp [is_identity_one]

/-- Witness for C3 at a concrete dataset and identity oracle. -/
theorem c3_resample_self_witness :
    c3data.grid.shape = c3data.grid.shape ∧
    c3data.grid.affine = c3data.grid.affine ∧
    c3data.grid.affine.det ≠ 0 ∧
    c3data.resample c3data.grid 0 (fun dat _ _ _ _ => dat) =
      .ok ⟨c3data.grid, c3data.nvols, c3data.roi, false, c3data.vals⟩ := by
  have hdet : c3data.grid.affine.det ≠ 0 := by
    have h1 : c3data.grid.affine = 1 := rfl
    rw [h1, Matrix.det_one]
    norm_num
  exact ⟨rfl, rfl, hdet,
    c3_resample_self c3data c3data.grid 0 (fun dat _ _ _ _ => dat) rfl rfl hdet⟩

/-- C4 counterexample: `set_2dt` does mutate the grid in place — after the
call the grid the data was constructed on has `shape[2] = 1` instead of the
original `4`, so the claim that every listed core operation leaves the
grid's shape unchanged is false. -/
theorem c4_set_2dt_mutates_grid_counterexample :
    c4data.grid.shape 2 = 4 ∧
    (getOk c4data.set_2dt c4data).grid.shape 2 = 1 ∧
    (getOk c4data.set_2dt c4data).grid.shape 2 ≠ c4data.grid.shape 2 :=
  ⟨rfl, rfl, by decide⟩

/-- C4 amended: the state-changing core operations leave the grid alone
except `set_2dt`, which replaces the third shape entry by `1` (the affine
and the other shape entries are unchanged); `set_roi` never touches the
grid, and `resample` builds a new object on the target grid. -/
theorem c4_grid_update_amended (d : QpData) :
    (∀ (b : Bool) (v : QpData), d.set_roi b = .ok v → v.grid = d.grid) ∧
    (∀ v : QpData, d.set_2dt = .ok v →
      v.grid.affine = d.grid.affine ∧ v.grid.shape 2 = 1 ∧
      ∀ i : Fin 3, i ≠ 2 → v.grid.shape i = d.grid.shape i) ∧
    (∀ (tg : DataGrid) (order : ℕ) (interp : InterpOracle) (v : QpData),
      d.resample tg order interp = .ok v → v.grid = tg) := by
  refine ⟨?_, ?_, ?_⟩
  · intro b v h
    unfold QpData.set_roi at h
    by_cases hcond : b = true ∧ d.nvols ≠ 1
    · rw [if_pos hcond] at h
      exact absurd h (by simp)
    · rw [if_neg hcond] at h
      simp only [Except.ok.injEq] at h
      rw [← h]
  · intro v h
    unfold QpData.set_2dt at h
    by_cases hcond : d.nvols ≠ 1 ∨ d.grid.shape 2 = 1
    · rw [if_pos hcond] at h
      exact absurd h (by simp)
    · rw [if_neg hcond] at h
      simp only [Except.ok.injEq] at h
      rw [← h]
      refine ⟨rfl, rfl, fun i hi => ?_⟩
      show (if i = 2 then 1 else d.grid.shape i) = d.grid.shape i
      rw [if_neg hi]
  · intro tg order interp v h
    simp only [QpData.resample] at h
    split_ifs at h <;> (try split_ifs at h) <;>
      first
      | (simp only [Except.ok.injEq] at h; rw [← h])
      | exact absurd h (by simp)

/-- Witness for the amended C4 at the concrete dataset. -/
theorem c4_grid_update_amended_witness :
    c4data.set_2dt = .ok (getOk c4data.set_2dt c4data) ∧
    ((getOk c4data.set_2dt c4data).grid.affine = c4data.grid.affine ∧
     (getOk c4data.set_2dt c4data).grid.shape 2 = 1 ∧
     ∀ i : Fin 3, i ≠ 2 →
       (getOk c4data.set_2dt c4data).grid.shape i = c4data.grid.shape i) :=
  ⟨rfl, (c4_grid_update_amended c4data).2.1 (getOk c4data.set_2dt c4data) rfl⟩

/-- C5: out-of-range probes return `0` rather than raising: any negative
rounded coordinate, or any rounded coordinate at or beyond the shape, gives
`0`; in particular the probe at grid position `(-1,-1,-1,0)` relative to the
data's own (valid) grid returns `0` on any grid. -/
theorem c5_value_out_of_range (d : QpData) (pos3 : Fin 3 → ℚ) (vol : ℕ)
    (grid : Option DataGrid) :
    (((∃ i, d.valueDp pos3 grid i < 0) ∨
      (∃ i, (d.grid.shape i : ℤ) ≤ d.valueDp pos3 grid i)) →
        d.value pos3 vol grid = 0) ∧
    (d.grid.transform.det ≠ 0 →
      d.value (fun _ => -1) 0 (some d.grid) = 0) := by
  constructor
  · intro h
    simp only [QpData.value]
    split_ifs with h1 h2
    · rfl
    · exfalso
      rcases h with ⟨i, hi⟩ | ⟨i, hi⟩
      · fin_cases i
        · exact h1 (Or.inl hi)
        · exact h1 (Or.inr (Or.inl hi))
        · exact h1 (Or.inr (Or.inr hi))
      · fin_cases i
        · exact absurd h2.1 (not_lt.mpr hi)
        · exact absurd h2.2.1 (not_lt.mpr hi)
        · exact absurd h2.2.2 (not_lt.mpr hi)
    · rfl
  · intro hdet
    have hdp : ∀ i, d.valueDp (fun _ => -1) (some d.grid) i = -1 := by
      intro i
      unfold QpData.valueDp
      have hg : (some d.grid).getD unitGrid = d.grid := rfl
      rw [hg, g2g_from_self d.grid _ hdet false]
      rw [Int.floor_eq_iff]
      constructor <;> norm_num
    simp only [QpData.value]
    have hneg : d.valueDp (fun _ => -1) (some d.grid) 0 < 0 := by
      rw [hdp 0]
      norm_num
    rw [if_pos (Or.inl hneg)]

/-- Witness for C5 at the concrete dataset: probe `(-1,-1,-1,0)`. -/
theorem c5_value_out_of_range_witness :
    c4data.grid.transform.det ≠ 0 ∧
    c4data.value (fun _ => -1) 0 (some c4data.grid) = 0 := by
  have htr : c4data.grid.transform = 1 := by
    funext i j
    fin_cases i <;> fin_cases j <;> rfl
  have hdet : c4data.grid.transform.det ≠ 0 := by
    rw [htr, Matrix.det_one]
    norm_num
  exact ⟨hdet,
    (c5_value_out_of_range c4data (fun _ => 0) 0 none).2 hdet⟩

/-- `dedupAdj` preserves membership. -/
theorem dedupAdj_mem (l : List ℤ) (x : ℤ) : x ∈ dedupAdj l ↔ x ∈ l := by
  induction l with
  | nil => simp [dedupAdj]
  | cons a t ih =>
    cases t with
    | nil => simp [dedupAdj]
    | cons b m =>
      by_cases hab : a = b
      · subst hab
        rw [show dedupAdj (a :: a :: m) = dedupAdj (a :: m) from by
          simp [dedupAdj]]
        rw [ih]
        simp only [List.mem_cons]
        tauto
      · rw [show dedupAdj (a :: b :: m) = a :: dedupAdj (b :: m) from by
          simp [dedupAdj, hab]]
        simp only [List.mem_cons, ih]

/-- `dedupAdj` of a `≤`-sorted list is `<`-sorted (strictly ascending). -/
theorem dedupAdj_sorted_lt (l : List ℤ) (h : l.Sorted (· ≤ ·)) :
    (dedupAdj l).Sorted (· < ·) := by
  induction l with
  | nil => simp [dedupAdj]
  | cons a t ih =>
    cases t with
    | nil => simp [dedupAdj]
    | cons b m =>
      rw [List.sorted_cons] at h
      obtain ⟨hall, hbm⟩ := h
      by_cases hab : a = b
      · rw [show dedupAdj (a :: b :: m) = dedupAdj (b :: m) from by
          simp [dedupAdj, hab]]
        exact ih hbm
      · have hlt : a < b := lt_of_le_of_ne (hall b (by simp)) hab
        rw [show dedupAdj (a :: b :: m) = a :: dedupAdj (b :: m) from by
          simp [dedupAdj, hab]]
        rw [List.sorted_cons]
        refine ⟨fun x hx => ?_, ih hbm⟩
        have hxmem : x ∈ b :: m := (dedupAdj_mem _ _).mp hx
        rcases List.mem_cons.mp hxmem with h1 | h1
        · subst h1
          exact hlt
        · exact lt_of_lt_of_le hlt ((List.sorted_cons.mp hbm).1 x h1)

/-- C10: on an ROI, `regions()` returns exactly the distinct strictly
positive truncated-integer values of the raw array, in strictly ascending
order (zero and negative labels never appear, a fractional value contributes
its truncation toward zero). -/
theorem c10_regions_sorted_positive (d : QpData) (hroi : d.roi = true) :
    ∃ l : List ℤ, d.regions = .ok l ∧ l.Sorted (· < ·) ∧
      ∀ z : ℤ, z ∈ l ↔
        (0 < z ∧ z ∈ (valsList d.grid.shape d.nvols d.vals).map truncQ) := by
  have hreg : d.regions = .ok ((dedupAdj
      (((valsList d.grid.shape d.nvols d.vals).map truncQ).insertionSort
        (· ≤ ·))).filter (fun r => decide (0 < r))) := by
    unfold QpData.regions
    rw [hroi]
    rfl
  refine ⟨_, hreg, ?_, ?_⟩
  · have hsorted : ((((valsList d.grid.shape d.nvols d.vals).map
        truncQ).insertionSort (· ≤ ·))).Sorted (· ≤ ·) :=
      List.sorted_insertionSort _ _
    have hdsorted := dedupAdj_sorted_lt _ hsorted
    exact List.Pairwise.sublist (List.filter_sublist _) hdsorted
  · intro z
    rw [List.mem_filter, dedupAdj_mem,
      (List.perm_insertionSort (· ≤ ·) _).mem_iff]
    simp only [decide_eq_true_eq]
    tauto

/-- Witness for C10 at the concrete ROI. -/
theorem c10_regions_sorted_positive_witness :
    c10data.roi = true ∧
    ∃ l : List ℤ, c10data.regions = .ok l ∧ l.Sorted (· < ·) ∧
      ∀ z : ℤ, z ∈ l ↔
        (0 < z ∧ z ∈ (valsList c10data.grid.shape c10data.nvols
          c10data.vals).map truncQ) :=
  ⟨rfl, c10_regions_sorted_positive c10data rfl⟩

/-- Characterisation of `is_identity` as a proposition. -/
theorem is_identity_eq_true_iff (m : Matrix (Fin 4) (Fin 4) ℚ) :
    is_identity m = true ↔
      ∀ i j, |m i j - (1 : Matrix (Fin 4) (Fin 4) ℚ) i j| < EQ_TOL := by
  unfold is_identity
  simp [List.all_eq_true, decide_eq_true_eq]

theorem st_m2_c2 : DataGrid.st_m2 c2affine = c2affine := by decide

theorem st_m3_c2 (shape : Fin 3 → ℕ) :
    DataGrid.st_m3 shape c2affine = c2affine := by
  funext i j
  unfold DataGrid.st_m3
  rw [show DataGrid.st_flip c2affine = [] from by decide]
  simp only [List.map_nil, List.sum_nil, sub_zero, st_m2_c2]
  split_ifs with h
  · rw [h.1]
  · rfl

theorem simplify_transforms_c2 (g : DataGrid) :
    g.simplify_transforms c2affine = ([0, 1, 2], [], c2affine) := by
  unfold DataGrid.simplify_transforms
  rw [show DataGrid.st_consistent c2affine = true from by decide, if_pos rfl,
    show DataGrid.st_order c2affine = [0, 1, 2] from by decide,
    show DataGrid.st_flip c2affine = [] from by decide, st_m3_c2]

theorem is_identity_c2 : is_identity c2affine = false := by
  rw [Bool.eq_false_iff]
  intro hcontra
  have h00 := (is_identity_eq_true_iff c2affine).mp hcontra 0 0
  rw [show c2affine 0 0 = 2 from rfl,
    show (1 : Matrix (Fin 4) (Fin 4) ℚ) 0 0 = 1 from rfl, EQ_TOL_eq] at h00
  norm_num at h00

/-- C2 (code bug evaluation): resampling an ROI through the general affine
path whose interpolated values are `{0, 1/2}` — which contains the
fractional value `1/2` — raises no error: the source tests
`np.equal(np.mod(data, 1), 0).any()` instead of `.all()`, so the presence
of one integer (here `0`) silently passes the "ROIs must contain integers
only" validation and the fractional label is truncated by the
`astype(np.int32)` cast. -/
theorem c2_roi_fractional_passes_validation :
    (mkRat 1 2).den ≠ 1 ∧
    mkRat 1 2 ∈ valsList c2target.shape c2data.nvols
      (fun idx _ => if idx 0 = 0 then (0 : ℚ) else mkRat 1 2) ∧
    is_identity ((c2data.grid.simplify_transforms
      (matInv c2target.affine * c2data.grid.affine)).2.2) = false ∧
    isOkB (c2data.resample c2target 1 c2interp) = true := by
  have h1 : matInv c2target.affine * c2data.grid.affine = c2affine := by
    show matInv 1 * c2affine = c2affine
    rw [matInv_one, one_mul]
  have hvl : valsList c2target.shape c2data.nvols
      (fun idx _ => if idx 0 = 0 then (0 : ℚ) else mkRat 1 2) =
      [0, mkRat 1 2] := rfl
  have hcond : ¬(listMin [(0 : ℚ), mkRat 1 2] < 0 ∨
      listMax [(0 : ℚ), mkRat 1 2] > 2 ^ 32) := by
    rw [show listMin [(0 : ℚ), mkRat 1 2] = 0 from rfl,
      show listMax [(0 : ℚ), mkRat 1 2] = mkRat 1 2 from rfl,
      Rat.mkRat_eq_div]
    norm_num
  have hany : (([(0 : ℚ), mkRat 1 2]).any fun x => x.den == 1) = true := by
    decide
  refine ⟨by decide, by rw [hvl]; decide,
    by rw [h1, simplify_transforms_c2]; exact is_identity_c2, ?_⟩
  simp only [QpData.resample, h1, simplify_transforms_c2]
  simp only [ne_eq, not_true_eq_false, if_false, List.foldl_nil,
    is_identity_c2, Bool.false_eq_true]
  rw [show c2data.roi = true from rfl, if_pos rfl]
  rw [show (c2interp c2data.vals (matInv c2affine) c2target.shape c2data.nvols 1)
      = fun idx _ => if idx 0 = 0 then (0 : ℚ) else mkRat 1 2 from rfl]
  rw [hvl]
  rw [if_neg hcond]
  rw [if_neg (by rw [hany]; decide)]
  rfl

/-- C6: in the axis-aligned fast path of `slice_data` (both computed basis
vectors are ortho vectors; the scaled normal is nondegenerate so the basis
divisions match the source), a rounded slice position inside the data range
yields an all-ones mask, and an out-of-range position yields all-zero data
and mask — no exception in either case (the result is total). -/
theorem c6_slice_data_fast_path (d : QpData) (plane : DataGrid) (vol : ℕ)
    (order : ℕ) (oracle : AffineSliceOracle) (ax1 ax2 : Fin 3) (s1 s2 : ℚ)
    (hdsn : d.sliceScaledNormal plane (d.sliceNaxis plane) ≠ 0)
    (h1 : is_ortho_vector (d.sliceBasis plane 0) (d.sliceShape plane 0) =
      some (ax1, s1))
    (h2 : is_ortho_vector (d.sliceBasis plane 1) (d.sliceShape plane 0) =
      some (ax2, s2)) :
    ((0 ≤ d.slicePos plane ∧
        d.slicePos plane < (d.grid.shape (d.sliceNaxis plane) : ℤ)) →
      (d.slice_data plane vol order oracle).smask = fun _ _ => 1) ∧
    (¬(0 ≤ d.slicePos plane ∧
        d.slicePos plane < (d.grid.shape (d.sliceNaxis plane) : ℤ)) →
      (d.slice_data plane vol order oracle).sdata = (fun _ _ => 0) ∧
      (d.slice_data plane vol order oracle).smask = fun _ _ => 0) := by
  constructor
  · intro hpos
    rw [QpData.slice_data.eq_def, h1, h2]
    simp only []
    rw [if_pos hpos]
  · intro hpos
    rw [QpData.slice_data.eq_def, h1, h2]
    simp only []
    rw [if_neg hpos]
    exact ⟨rfl, rfl⟩

/-- Witness for C6: on the identity grid the fast path is taken, the
position is in range and the mask is all ones. -/
theorem c6_slice_data_fast_path_witness :
    d6.sliceScaledNormal d6.grid (d6.sliceNaxis d6.grid) ≠ 0 ∧
    is_ortho_vector (d6.sliceBasis d6.grid 0) (d6.sliceShape d6.grid 0) =
      some (0, 1) ∧
    is_ortho_vector (d6.sliceBasis d6.grid 1) (d6.sliceShape d6.grid 0) =
      some (1, 1) ∧
    (0 ≤ d6.slicePos d6.grid ∧
      d6.slicePos d6.grid < (d6.grid.shape (d6.sliceNaxis d6.grid) : ℤ)) ∧
    (d6.slice_data d6.grid 0 0 (fun _ _ _ _ _ _ => 0)).smask = fun _ _ => 1 := by
  have htr : d6.grid.transform = 1 := by
    funext i j
    fin_cases i <;> fin_cases j <;> rfl
  have hinv : d6.grid.inv_transform = 1 := by
    unfold DataGrid.inv_transform
    rw [htr, matInv_one]
  have horig : d6.grid.origin = fun _ => 0 := by
    funext i
    fin_cases i <;> rfl
  have hnormal : d6.sliceNormal d6.grid = fun i => if i = 2 then 1 else 0 := by
    unfold QpData.sliceNormal DataGrid.g2g_from
    simp only [DataGrid.grid_to_world3, DataGrid.world_to_grid3, htr, hinv,
      Matrix.one_mulVec]
  have hori0 : d6.sliceOrigin0 d6.grid = fun _ => 0 := by
    unfold QpData.sliceOrigin0 DataGrid.g2g_from
    simp only [DataGrid.grid_to_world3, DataGrid.world_to_grid3, htr, hinv,
      Matrix.one_mulVec, horig]
    funext i
    simp
  have hsp : ∀ i : Fin 3, d6.grid.spacing_sq i = 1 := by
    intro i
    unfold DataGrid.spacing_sq
    rw [show d6.grid.affine = 1 from rfl]
    have hent : ∀ j : Fin 4, ((1 : Matrix (Fin 4) (Fin 4) ℚ) j i.castSucc) ^ 2
        = if j = i.castSucc then 1 else 0 := by
      intro j
      rw [Matrix.one_apply]
      split_ifs <;> norm_num
    rw [Finset.sum_congr rfl (fun j _ => hent j)]
    simp
  have hdsn : d6.sliceScaledNormal d6.grid = fun i => if i = 2 then 1 else 0 := by
    funext i
    unfold QpData.sliceScaledNormal
    simp only [hnormal, hsp i, mul_one]
  have hna : d6.sliceNaxis d6.grid = 2 := by
    unfold QpData.sliceNaxis
    rw [hdsn]
    decide
  have hb0 : d6.sliceBasis d6.grid 0 = fun i => if i = 0 then 1 else 0 := by
    funext i
    fin_cases i <;> simp [QpData.sliceBasis, hna, sliceAxes, hdsn]
  have hb1 : d6.sliceBasis d6.grid 1 = fun i => if i = 1 then 1 else 0 := by
    funext i
    fin_cases i <;> simp [QpData.sliceBasis, hna, sliceAxes, hdsn]
  have hsh0 : d6.sliceShape d6.grid 0 = 2 := by
    simp [QpData.sliceShape, hna, sliceAxes]
    rfl
  have hns : ∀ a : Fin 3, normSq3 (fun i => if i = a then (1 : ℚ) else 0) = 1 := by
    intro a
    unfold normSq3
    have hent : ∀ i : Fin 3, ((fun i => if i = a then (1 : ℚ) else 0) i) ^ 2
        = if i = a then 1 else 0 := by
      intro i
      by_cases h : i = a <;> simp [h]
    rw [Finset.sum_congr rfl (fun i _ => hent i)]
    simp
  have hcond : ∀ a : Fin 3, ortho_cond (fun i => if i = a then (1 : ℚ) else 0) 2 a := by
    intro a
    unfold ortho_cond
    rw [hns a]
    simp only [if_pos rfl]
    rw [EQ_TOL_eq]
    norm_num
  have hcondn : ∀ a b : Fin 3, b ≠ a →
      ¬ ortho_cond (fun i => if i = a then (1 : ℚ) else 0) 2 b := by
    intro a b hb hcontra
    obtain ⟨hlt, _⟩ := hcontra
    rw [hns a, show ((fun i => if i = a then (1 : ℚ) else 0) b) = 0 from by
      simp [hb], EQ_TOL_eq] at hlt
    norm_num at hlt
  have ho0 : is_ortho_vector (fun i => if i = 0 then (1 : ℚ) else 0) 2 =
      some (0, 1) := by
    unfold is_ortho_vector
    rw [show (List.finRange 3) = [(0 : Fin 3), 1, 2] from by decide]
    simp only [List.findSome?]
    rw [if_pos (hcond 0)]
    simp
  have ho1 : is_ortho_vector (fun i => if i = 1 then (1 : ℚ) else 0) 2 =
      some (1, 1) := by
    unfold is_ortho_vector
    rw [show (List.finRange 3) = [(0 : Fin 3), 1, 2] from by decide]
    simp only [List.findSome?]
    rw [if_neg (hcondn 1 0 (by decide)), if_pos (hcond 1)]
    simp
  have h1 : is_ortho_vector (d6.sliceBasis d6.grid 0) (d6.sliceShape d6.grid 0)
      = some (0, 1) := by
    rw [hb0, hsh0]
    exact ho0
  have h2 : is_ortho_vector (d6.sliceBasis d6.grid 1) (d6.sliceShape d6.grid 0)
      = some (1, 1) := by
    rw [hb1, hsh0]
    exact ho1
  have hdsnne : d6.sliceScaledNormal d6.grid (d6.sliceNaxis d6.grid) ≠ 0 := by
    rw [hna]
    simp only [hdsn]
    norm_num
  have hposval : d6.slicePos d6.grid = 0 := by
    unfold QpData.slicePos
    rw [hna]
    simp only [hori0]
    rw [Int.floor_eq_iff]
    constructor <;> norm_num
  have hrange : 0 ≤ d6.slicePos d6.grid ∧
      d6.slicePos d6.grid < (d6.grid.shape (d6.sliceNaxis d6.grid) : ℤ) := by
    rw [hposval, hna]
    norm_num [show d6.grid.shape 2 = 2 from rfl]
  exact ⟨hdsnne, h1, h2, hrange,
    (c6_slice_data_fast_path d6 d6.grid 0 0 (fun _ _ _ _ _ _ => 0) 0 1 1 1
      hdsnne h1 h2).1 hrange⟩
